import Mathlib

/-!
Shallow embedding of src/password_checker.py.

Python strings are modelled as Lean strings, character-class predicates are
modelled over the ASCII range (the inputs the program is concerned with),
Python floats are modelled as real numbers for the entropy and crack-time
pipeline and as rationals for the duration formatter, and the two effectful
parts (reading the word-list file, rendering with matplotlib) are modelled by
making the outcome of the effect an explicit parameter.
-/

/-- Model of string.ascii_lowercase. -/
def ascii_lowercase : String := "abcdefghijklmnopqrstuvwxyz"

/-- Model of string.ascii_uppercase. -/
def ascii_uppercase : String := "ABCDEFGHIJKLMNOPQRSTUVWXYZ"

/-- Model of string.digits. -/
def digits_str : String := "0123456789"

/-- Model of string.punctuation, given by the 32 ASCII codes 33-47, 58-64,
91-96 and 123-126. -/
def punctuation : List Char :=
  [33, 34, 35, 36, 37, 38, 39, 40, 41, 42, 43, 44, 45, 46, 47,
   58, 59, 60, 61, 62, 63, 64,
   91, 92, 93, 94, 95, 96,
   123, 124, 125, 126].map Char.ofNat

/-- Model of str.isspace restricted to ASCII: space, tab, newline, carriage
return, vertical tab (11) and form feed (12). -/
def isPySpace (c : Char) : Bool :=
  c = ' ' || c = '\t' || c = '\n' || c = '\r' || c = Char.ofNat 11 || c = Char.ofNat 12

/-- Model of charset_size (src/password_checker.py lines 43-55): sum the
alphabet sizes of the character classes that occur in the password, and turn
a zero total into 1 (the Python idiom cs or 1). -/
def charset_size (password : String) : Nat :=
  let cs :=
    (if password.data.any Char.isLower then ascii_lowercase.length else 0)
    + (if password.data.any Char.isUpper then ascii_uppercase.length else 0)
    + (if password.data.any Char.isDigit then digits_str.length else 0)
    + (if password.data.any (fun c => punctuation.contains c) then punctuation.length else 0)
    + (if password.data.any isPySpace then 1 else 0)
  if cs = 0 then 1 else cs

/-- Model of entropy_bits (lines 57-61). -/
noncomputable def entropy_bits (password : String) : ℝ :=
  let cs := charset_size password
  if cs ≤ 1 then 0 else (password.length : ℝ) * Real.logb 2 cs

/-- Model of avg_crack_time_seconds_from_bits (lines 63-65). -/
noncomputable def avg_crack_time_seconds_from_bits (bits attempts_per_second : ℝ) : ℝ :=
  let combos := (2 : ℝ) ^ bits
  (combos / 2) / attempts_per_second

/-- Model of strength_label (lines 103-110). -/
noncomputable def strength_label (bits : ℝ) : String :=
  if bits < 28 then "Weak"
  else if bits < 36 then "Okay"
  else if bits < 60 then "Good"
  else "Very strong"

/-- Nearest integer with ties to even, the rounding used by Python float
formatting, here on exact rationals. -/
def roundHalfEven (x : ℚ) : ℤ :=
  let f := ⌊x⌋
  let frac := x - f
  if frac < 1/2 then f
  else if 1/2 < frac then f + 1
  else if f % 2 = 0 then f else f + 1

/-- Model of a Python format with zero decimals, as in a .0f field. -/
def fmt0 (x : ℚ) : String :=
  toString (roundHalfEven x)

/-- Model of a Python format with one decimal, as in a .1f field, on the
nonnegative values the duration formatter feeds it. -/
def fmt1 (x : ℚ) : String :=
  let n := (roundHalfEven (10 * x)).toNat
  toString (n / 10) ++ "." ++ toString (n % 10)

/-- Model of human_readable (lines 67-86), with seconds as an exact
rational. -/
def human_readable (seconds : ℚ) : String :=
  if seconds < 1 then fmt0 (seconds * 1000) ++ " ms"
  else
    let minute : ℚ := 60
    let hour : ℚ := 3600
    let day : ℚ := 86400
    let year : ℚ := 365 * day
    let century : ℚ := 100 * year
    if seconds < minute then fmt1 seconds ++ " s"
    else if seconds < hour then fmt1 (seconds / minute) ++ " min"
    else if seconds < day then fmt1 (seconds / hour) ++ " h"
    else if seconds < year then fmt1 (seconds / day) ++ " days"
    else if seconds < century then fmt1 (seconds / year) ++ " years"
    else fmt1 (seconds / century) ++ " centuries"

/-- The ASCII apostrophe, kept out of string literals. -/
def apostrophe : Char := Char.ofNat 39

/-- Model of str.lower, character by character. -/
def str_lower (s : String) : String := String.mk (s.data.map Char.toLower)

/-- Model of str.strip: drop leading and trailing whitespace. -/
def strip (s : String) : String :=
  String.mk (((s.data.dropWhile isPySpace).reverse.dropWhile isPySpace).reverse)

/-- Whether needle occurs at the start of hay. -/
def startsWithList : List Char → List Char → Bool
  | [], _ => true
  | _ :: _, [] => false
  | a :: as, b :: bs => a = b && startsWithList as bs

/-- Whether needle occurs contiguously anywhere in hay, the model of the
Python substring test needle in hay. -/
def containsList (needle : List Char) : List Char → Bool
  | [] => needle.isEmpty
  | b :: bs => startsWithList needle (b :: bs) || containsList needle bs

/-- Model of FALLBACK_COMMON (lines 13-16). -/
def FALLBACK_COMMON : Finset String :=
  (["123456", "password", "123456789", "12345678", "12345", "qwerty",
    "abc123", "password1", "111111", "1234567", "iloveyou", "admin"]).toFinset

/-- Outcome of the attempt to read the optional word-list file, made explicit
so that load_common_passwords is a pure function of it: the file is missing,
reading it raises, or it yields a list of lines. -/
inductive ReadOutcome where
  | missing : ReadOutcome
  | readError : ReadOutcome
  | content : List String → ReadOutcome

/-- Model of load_common_passwords (lines 18-32): on a missing file or a read
error return the fallback set; otherwise strip each line, skip blanks and
comment lines, lowercase and collect into a set; an empty result also falls
back (the Python idiom words or FALLBACK_COMMON). -/
def load_common_passwords (r : ReadOutcome) : Finset String :=
  match r with
  | ReadOutcome.missing => FALLBACK_COMMON
  | ReadOutcome.readError => FALLBACK_COMMON
  | ReadOutcome.content lines =>
      let words := (((lines.map strip).filter
        (fun w => !(w == "" || startsWithList "#".data w.data))).map str_lower).toFinset
      if words = ∅ then FALLBACK_COMMON else words

/-- Model of the inline common-password test password.lower() in
COMMON_PASSWORDS (lines 124 and 172), with the loaded set as a parameter. -/
def is_common (common : Finset String) (password : String) : Bool :=
  decide (str_lower password ∈ common)

/-- Model of contains_common_part (lines 130-135), with the loaded set as a
parameter; iteration over the set is an existential, so the arbitrary
iteration order of a Python set cannot matter. -/
def contains_common_part (common : Finset String) (password : String) : Bool :=
  let low := str_lower password
  decide (∃ c ∈ common, containsList c.data low.data = true ∧ 3 ≤ c.length)

/-- Model of suggest_improvements (lines 112-128), with the loaded set as a
parameter: the six conditions are evaluated in source order, each triggered
one appends its message, and an empty result is replaced by the single
affirmation message. -/
def triggered_suggestions (common : Finset String) (password : String) : List String :=
  (if password.length < 12 then ["➕ Make it longer (12+ characters)."] else [])
  ++ (if ¬ password.data.any Char.isLower then ["🔡 Add lowercase letters."] else [])
  ++ (if ¬ password.data.any Char.isUpper then ["🔠 Add uppercase letters."] else [])
  ++ (if ¬ password.data.any Char.isDigit then ["🔢 Add numbers."] else [])
  ++ (if ¬ password.data.any (fun c => punctuation.contains c) then
        ["🔣 Add symbols (e.g. !?@#)."] else [])
  ++ (if is_common common password = true ∨ password.length ≤ 4 then
        ["⚠️  Don" ++ String.singleton apostrophe ++ "t use common or very short passwords."]
      else [])

def suggest_improvements (common : Finset String) (password : String) : List String :=
  let suggestions := triggered_suggestions common password
  if suggestions = [] then
    ["✅ Nice! Consider a passphrase or a password manager."]
  else suggestions

/-- Result of one call to show_strength_visual: a graphical bar at some
percentage, or the printed ASCII bar. -/
inductive VisualOutcome where
  | graphical : ℝ → String → VisualOutcome
  | asciiBar : String → VisualOutcome

/-- Model of show_strength_visual (lines 137-161). The availability of
matplotlib and whether its rendering raises are explicit parameters; a raise
is an Except.error. The ASCII branch prints a bar of hash and dash marks of
total width 50. -/
noncomputable def show_strength_visual (matplotlibAvailable plotRaises : Bool)
    (bits : ℝ) (label : String) : Except Unit VisualOutcome :=
  let perc := min (max (bits / 80 * 100) 0) 100
  if matplotlibAvailable then
    if plotRaises then Except.error () else Except.ok (VisualOutcome.graphical perc label)
  else
    let blocks := (⌊perc / 2⌋).toNat
    Except.ok (VisualOutcome.asciiBar
      (String.mk (List.replicate blocks '#' ++ List.replicate (50 - blocks) '-')))

/-- Model of the try/except around the visual rendering in
check_password_and_show (lines 200-204): on an exception from the first call,
the except handler calls show_strength_visual again with the same state. -/
noncomputable def try_show_visual (matplotlibAvailable plotRaises : Bool)
    (bits : ℝ) (label : String) : Except Unit VisualOutcome :=
  match show_strength_visual matplotlibAvailable plotRaises bits label with
  | Except.ok v => Except.ok v
  | Except.error _ => show_strength_visual matplotlibAvailable plotRaises bits label

/-- A bits value of at least 60 always gets the Very strong label. -/
lemma strength_label_of_sixty_le {bits : ℝ} (h : 60 ≤ bits) :
    strength_label bits = "Very strong" := by
  rw [strength_label, if_neg (not_lt.2 (by linarith)), if_neg (not_lt.2 (by linarith)),
    if_neg (not_lt.2 h)]

/-- Evaluation rule for roundHalfEven when the fractional part is below one
half. -/
lemma roundHalfEven_eq (x : ℚ) (n : ℤ) (hf : ⌊x⌋ = n) (hlt : x - n < 1/2) :
    roundHalfEven x = n := by
  unfold roundHalfEven
  rw [hf, if_pos hlt]

/-- Evaluation rule for fmt0 when the fractional part is below one half. -/
lemma fmt0_eval (x : ℚ) (n : ℤ) (hf : ⌊x⌋ = n) (hlt : x - n < 1/2) :
    fmt0 x = toString n := by
  unfold fmt0
  rw [roundHalfEven_eq x n hf hlt]

/-- Evaluation rule for fmt1 when the fractional part of ten times the value
is below one half. -/
lemma fmt1_eval (x : ℚ) (n : ℤ) (hf : ⌊10 * x⌋ = n) (hlt : 10 * x - n < 1/2) :
    fmt1 x = toString (n.toNat / 10) ++ "." ++ toString (n.toNat % 10) := by
  unfold fmt1
  rw [roundHalfEven_eq (10 * x) n hf hlt]

/-- Claim C4: charset_size is the sum of the alphabet sizes of the character
classes present (26 lowercase, 26 uppercase, 10 digits, 32 punctuation, 1 for
whitespace counted once), is 1 when no class matches, and is at least 1 on
every input including the empty string. -/
theorem C4_charset_size_spec :
    (∀ p : String,
      1 ≤ charset_size p
      ∧ ((p.data.any Char.isLower = true ∨ p.data.any Char.isUpper = true
          ∨ p.data.any Char.isDigit = true
          ∨ p.data.any (fun c => punctuation.contains c) = true
          ∨ p.data.any isPySpace = true) →
          charset_size p =
            (if p.data.any Char.isLower then 26 else 0)
            + (if p.data.any Char.isUpper then 26 else 0)
            + (if p.data.any Char.isDigit then 10 else 0)
            + (if p.data.any (fun c => punctuation.contains c) then 32 else 0)
            + (if p.data.any isPySpace then 1 else 0))
      ∧ ((¬ (p.data.any Char.isLower = true ∨ p.data.any Char.isUpper = true
          ∨ p.data.any Char.isDigit = true
          ∨ p.data.any (fun c => punctuation.contains c) = true
          ∨ p.data.any isPySpace = true)) → charset_size p = 1))
    ∧ charset_size "" = 1 := by
  constructor
  · intro p
    have hl : ascii_lowercase.length = 26 := by decide
    have hu : ascii_uppercase.length = 26 := by decide
    have hd : digits_str.length = 10 := by decide
    have hp : punctuation.length = 32 := by decide
    cases hA : p.data.any Char.isLower <;>
      cases hB : p.data.any Char.isUpper <;>
      cases hC : p.data.any Char.isDigit <;>
      cases hD : p.data.any (fun c => punctuation.contains c) <;>
      cases hE : p.data.any isPySpace <;>
      simp only [charset_size, hA, hB, hC, hD, hE, hl, hu, hd, hp] <;>
      norm_num
  · decide

/-- Closed instance of claim C4 obtained from the theorem at concrete
passwords, discharging each hypothesis there. -/
theorem C4_charset_size_spec_witness : charset_size "a" = 26 ∧ charset_size "" = 1 := by
  have h1 := (C4_charset_size_spec.1 "a").2.1 (Or.inl (by decide))
  have h2 := (C4_charset_size_spec.1 "").2.2 (by decide)
  exact ⟨by simpa using h1, h2⟩

/-- Claim C1: entropy_bits is 0 whenever charset_size is at most 1, and is
otherwise the password length times the base-2 logarithm of charset_size; in
particular it is 0 on the empty password. -/
theorem C1_entropy_bits_spec :
    (∀ p : String, charset_size p ≤ 1 → entropy_bits p = 0)
    ∧ (∀ p : String, 1 < charset_size p →
        entropy_bits p = (p.length : ℝ) * Real.logb 2 (charset_size p))
    ∧ entropy_bits "" = 0 := by
  refine ⟨fun p h => ?_, fun p h => ?_, ?_⟩
  · simp [entropy_bits, h]
  · simp [entropy_bits, not_le.2 h]
  · simp [entropy_bits, show charset_size "" ≤ 1 by decide]

/-- Closed instance of claim C1 obtained from the theorem at a concrete
password, discharging its hypothesis there. -/
theorem C1_entropy_bits_spec_witness : entropy_bits "" = 0 :=
  C1_entropy_bits_spec.1 "" (by decide)

/-- Claim C5: strength_label maps bits below 28 to Weak, bits in
[28, 36) to Okay, bits in [36, 60) to Good and bits of 60 or more to
Very strong, with the six boundary examples from the specification. -/
theorem C5_strength_label_spec :
    (∀ bits : ℝ,
      (bits < 28 → strength_label bits = "Weak")
      ∧ (28 ≤ bits → bits < 36 → strength_label bits = "Okay")
      ∧ (36 ≤ bits → bits < 60 → strength_label bits = "Good")
      ∧ (60 ≤ bits → strength_label bits = "Very strong"))
    ∧ strength_label 27.9 = "Weak" ∧ strength_label 28 = "Okay"
    ∧ strength_label 35.9 = "Okay" ∧ strength_label 36 = "Good"
    ∧ strength_label 59.9 = "Good" ∧ strength_label 60 = "Very strong" := by
  have hg : ∀ bits : ℝ,
      (bits < 28 → strength_label bits = "Weak")
      ∧ (28 ≤ bits → bits < 36 → strength_label bits = "Okay")
      ∧ (36 ≤ bits → bits < 60 → strength_label bits = "Good")
      ∧ (60 ≤ bits → strength_label bits = "Very strong") := by
    intro bits
    refine ⟨fun h => ?_, fun h1 h2 => ?_, fun h1 h2 => ?_, fun h => ?_⟩
    · simp [strength_label, h]
    · rw [strength_label, if_neg (not_lt.2 h1), if_pos h2]
    · rw [strength_label, if_neg (not_lt.2 (by linarith)), if_neg (not_lt.2 h1), if_pos h2]
    · rw [strength_label, if_neg (not_lt.2 (by linarith)), if_neg (not_lt.2 (by linarith)),
        if_neg (not_lt.2 h)]
  refine ⟨hg, (hg 27.9).1 (by norm_num), (hg 28).2.1 (by norm_num) (by norm_num),
    (hg 35.9).2.1 (by norm_num) (by norm_num), (hg 36).2.2.1 (by norm_num) (by norm_num),
    (hg 59.9).2.2.1 (by norm_num) (by norm_num), (hg 60).2.2.2 (by norm_num)⟩

/-- Closed instance of claim C5 obtained from the theorem at a concrete bits
value, discharging its hypotheses there. -/
theorem C5_strength_label_spec_witness : strength_label 30 = "Okay" :=
  (C5_strength_label_spec.1 30).2.1 (by norm_num) (by norm_num)

/-- Counterexample to claim C2: at 10 attempts per second and 0 bits the
crack-time function returns 1/20 of a second, not 0. -/
theorem C2_counterexample :
    avg_crack_time_seconds_from_bits 0 10 = 1 / 20
    ∧ avg_crack_time_seconds_from_bits 0 10 ≠ 0 := by
  have h : avg_crack_time_seconds_from_bits 0 10 = 1 / 20 := by
    simp [avg_crack_time_seconds_from_bits, Real.rpow_zero]
    norm_num
  exact ⟨h, by rw [h]; norm_num⟩

/-- Claim C2 as amended: with bits = 0 and a positive attempts-per-second
rate, the crack-time function returns 1 / (2 * rate), which is not 0. -/
theorem C2_avg_crack_zero_bits :
    ∀ rate : ℝ, 0 < rate →
      avg_crack_time_seconds_from_bits 0 rate = 1 / (2 * rate)
      ∧ avg_crack_time_seconds_from_bits 0 rate ≠ 0 := by
  intro rate hrate
  have h : avg_crack_time_seconds_from_bits 0 rate = 1 / (2 * rate) := by
    simp only [avg_crack_time_seconds_from_bits, Real.rpow_zero]
    field_simp
  refine ⟨h, ?_⟩
  rw [h]
  positivity

/-- Closed instance of the amended claim C2 obtained from the theorem at a
concrete rate, discharging its hypothesis there. -/
theorem C2_avg_crack_zero_bits_witness :
    avg_crack_time_seconds_from_bits 0 10 = 1 / (2 * 10) :=
  (C2_avg_crack_zero_bits 10 (by norm_num)).1

/-- Claim C10: for a positive attempts-per-second rate the crack-time
function returns exactly 2 ^ (bits - 1) / rate, is strictly positive (also at
bits = 0), and strictly decreases as the rate increases. -/
theorem C10_avg_crack_spec :
    ∀ bits rate : ℝ, 0 < rate →
      avg_crack_time_seconds_from_bits bits rate = 2 ^ (bits - 1) / rate
      ∧ 0 < avg_crack_time_seconds_from_bits bits rate
      ∧ avg_crack_time_seconds_from_bits 0 rate ≠ 0
      ∧ ∀ rate' : ℝ, rate < rate' →
          avg_crack_time_seconds_from_bits bits rate' < avg_crack_time_seconds_from_bits bits rate := by
  intro bits rate hrate
  have htwo : (0:ℝ) < 2 := by norm_num
  have hpos : ∀ b : ℝ, 0 < avg_crack_time_seconds_from_bits b rate := by
    intro b
    exact div_pos (div_pos (Real.rpow_pos_of_pos htwo b) htwo) hrate
  refine ⟨?_, hpos bits, (hpos 0).ne', ?_⟩
  · simp only [avg_crack_time_seconds_from_bits]
    rw [Real.rpow_sub htwo, Real.rpow_one]
  · intro rate' hrr
    simp only [avg_crack_time_seconds_from_bits]
    exact div_lt_div_of_pos_left (div_pos (Real.rpow_pos_of_pos htwo bits) htwo) hrate hrr

/-- Closed instance of claim C10 obtained from the theorem at concrete bits
and rates, discharging each hypothesis there. -/
theorem C10_avg_crack_spec_witness :
    avg_crack_time_seconds_from_bits 3 1 = 2 ^ ((3:ℝ) - 1) / 1
    ∧ 0 < avg_crack_time_seconds_from_bits 3 1
    ∧ avg_crack_time_seconds_from_bits 3 2 < avg_crack_time_seconds_from_bits 3 1 :=
  ⟨(C10_avg_crack_spec 3 1 (by norm_num)).1,
   (C10_avg_crack_spec 3 1 (by norm_num)).2.1,
   (C10_avg_crack_spec 3 1 (by norm_num)).2.2.2 2 (by norm_num)⟩

/-- Claim C7: suggest_improvements evaluates the six conditions in source
order, appending one suggestion per triggered condition, replaces an empty
result with the single affirmation, is therefore never empty, and a
common-substring match alone adds no suggestion entry (witnessed by a
password that matches a common substring yet gets only the affirmation). -/
theorem C7_suggest_improvements_spec :
    (∀ (common : Finset String) (p : String),
      suggest_improvements common p =
        (if ((if p.length < 12 then ["➕ Make it longer (12+ characters)."] else [])
          ++ (if ¬ p.data.any Char.isLower then ["🔡 Add lowercase letters."] else [])
          ++ (if ¬ p.data.any Char.isUpper then ["🔠 Add uppercase letters."] else [])
          ++ (if ¬ p.data.any Char.isDigit then ["🔢 Add numbers."] else [])
          ++ (if ¬ p.data.any (fun c => punctuation.contains c) then
                ["🔣 Add symbols (e.g. !?@#)."] else [])
          ++ (if is_common common p = true ∨ p.length ≤ 4 then
                ["⚠️  Don" ++ String.singleton apostrophe
                  ++ "t use common or very short passwords."] else [])) = []
        then ["✅ Nice! Consider a passphrase or a password manager."]
        else ((if p.length < 12 then ["➕ Make it longer (12+ characters)."] else [])
          ++ (if ¬ p.data.any Char.isLower then ["🔡 Add lowercase letters."] else [])
          ++ (if ¬ p.data.any Char.isUpper then ["🔠 Add uppercase letters."] else [])
          ++ (if ¬ p.data.any Char.isDigit then ["🔢 Add numbers."] else [])
          ++ (if ¬ p.data.any (fun c => punctuation.contains c) then
                ["🔣 Add symbols (e.g. !?@#)."] else [])
          ++ (if is_common common p = true ∨ p.length ≤ 4 then
                ["⚠️  Don" ++ String.singleton apostrophe
                  ++ "t use common or very short passwords."] else []))))
    ∧ (∀ (common : Finset String) (p : String), suggest_improvements common p ≠ [])
    ∧ contains_common_part FALLBACK_COMMON "Mypassword9!" = true
    ∧ suggest_improvements FALLBACK_COMMON "Mypassword9!"
        = ["✅ Nice! Consider a passphrase or a password manager."] := by
  refine ⟨fun common p => rfl, fun common p => ?_, by decide, by decide⟩
  simp only [suggest_improvements]
  split
  · exact List.cons_ne_nil _ _
  · next h => exact h

/-- Claim C8: the fallback set has at least 10 entries, the loader returns it
when the word list is missing, unreadable, or contains only blank and
comment lines, and the loaded set is never empty. -/
theorem C8_loader_spec :
    10 ≤ FALLBACK_COMMON.card
    ∧ load_common_passwords ReadOutcome.missing = FALLBACK_COMMON
    ∧ load_common_passwords ReadOutcome.readError = FALLBACK_COMMON
    ∧ (∀ lines : List String,
        (∀ w ∈ lines, strip w = "" ∨ startsWithList "#".data (strip w).data = true) →
        load_common_passwords (ReadOutcome.content lines) = FALLBACK_COMMON)
    ∧ (∀ r : ReadOutcome, (load_common_passwords r).Nonempty) := by
  refine ⟨by decide, rfl, rfl, fun lines h => ?_, fun r => ?_⟩
  · simp only [load_common_passwords]
    have hf : (lines.map strip).filter
        (fun w => !(w == "" || startsWithList "#".data w.data)) = [] := by
      rw [List.filter_eq_nil_iff]
      intro a ha
      rcases List.mem_map.1 ha with ⟨w, hw, rfl⟩
      rcases h w hw with h1 | h1 <;> simp [h1]
    rw [hf]
    simp
  · cases r with
    | missing => exact ⟨"admin", by decide⟩
    | readError => exact ⟨"admin", by decide⟩
    | content lines =>
        simp only [load_common_passwords]
        split
        · exact ⟨"admin", by decide⟩
        · next h => exact Finset.nonempty_iff_ne_empty.2 h

/-- Closed instance of claim C8 obtained from the theorem at a concrete
comment-and-blank word list, discharging its hypothesis there. -/
theorem C8_loader_spec_witness :
    load_common_passwords (ReadOutcome.content ["# note", "   ", "", "# x"])
      = FALLBACK_COMMON :=
  C8_loader_spec.2.2.2.1 ["# note", "   ", "", "# x"] (by decide)

/-- Claim C3 at the failing input: with matplotlib available and its
rendering raising, the try/except in check_password_and_show retries the
graphical branch, which raises again, so the exception escapes and the
report run aborts instead of falling back to the ASCII bar. The fallback is
taken, and is a 50-character bar, only when matplotlib is absent. -/
theorem C3_visual_retry_bug :
    (∀ (bits : ℝ) (label : String),
      try_show_visual true true bits label = Except.error ())
    ∧ (∀ (bits : ℝ) (label : String) (plotRaises : Bool),
        ∃ bar : String,
          try_show_visual false plotRaises bits label
            = Except.ok (VisualOutcome.asciiBar bar)
          ∧ bar.length = 50) := by
  constructor
  · intro bits label
    rfl
  · intro bits label plotRaises
    refine ⟨_, rfl, ?_⟩
    have hperc : min (max (bits / 80 * 100) 0) 100 ≤ (100:ℝ) := min_le_right _ _
    have hfl : ⌊min (max (bits / 80 * 100) 0) 100 / 2⌋ ≤ (50:ℤ) := by
      have h2 : min (max (bits / 80 * 100) 0) 100 / 2 ≤ (50:ℝ) := by linarith
      have := Int.floor_le_floor h2
      simpa using this
    have hb : (⌊min (max (bits / 80 * 100) 0) 100 / 2⌋).toNat ≤ 50 := by
      exact Int.toNat_le.2 hfl
    simp only [String.length, String.mk, List.length_append, List.length_replicate]
    omega

/-- Claim C6: human_readable picks milliseconds below one second, then
seconds, minutes, hours, days, years and centuries at the thresholds 60,
3600, 86400, 31536000 (365 days) and 3153600000 (100 years), formatting with
one decimal except milliseconds as an integer; with the three concrete
examples from the specification. -/
theorem C6_human_readable_spec :
    (∀ s : ℚ,
      (s < 1 → human_readable s = fmt0 (s * 1000) ++ " ms")
      ∧ (1 ≤ s → s < 60 → human_readable s = fmt1 s ++ " s")
      ∧ (60 ≤ s → s < 3600 → human_readable s = fmt1 (s / 60) ++ " min")
      ∧ (3600 ≤ s → s < 86400 → human_readable s = fmt1 (s / 3600) ++ " h")
      ∧ (86400 ≤ s → s < 31536000 → human_readable s = fmt1 (s / 86400) ++ " days")
      ∧ (31536000 ≤ s → s < 3153600000 →
          human_readable s = fmt1 (s / 31536000) ++ " years")
      ∧ (3153600000 ≤ s → human_readable s = fmt1 (s / 3153600000) ++ " centuries"))
    ∧ human_readable (1/2) = "500 ms"
    ∧ human_readable 45 = "45.0 s"
    ∧ human_readable 3661 = "1.0 h" := by
  have hg : ∀ s : ℚ,
      (s < 1 → human_readable s = fmt0 (s * 1000) ++ " ms")
      ∧ (1 ≤ s → s < 60 → human_readable s = fmt1 s ++ " s")
      ∧ (60 ≤ s → s < 3600 → human_readable s = fmt1 (s / 60) ++ " min")
      ∧ (3600 ≤ s → s < 86400 → human_readable s = fmt1 (s / 3600) ++ " h")
      ∧ (86400 ≤ s → s < 31536000 → human_readable s = fmt1 (s / 86400) ++ " days")
      ∧ (31536000 ≤ s → s < 3153600000 →
          human_readable s = fmt1 (s / 31536000) ++ " years")
      ∧ (3153600000 ≤ s → human_readable s = fmt1 (s / 3153600000) ++ " centuries") := by
    intro s
    refine ⟨fun h => ?_, fun h1 h2 => ?_, fun h1 h2 => ?_, fun h1 h2 => ?_,
      fun h1 h2 => ?_, fun h1 h2 => ?_, fun h1 => ?_⟩
    · simp only [human_readable, if_pos h]
    · simp only [human_readable]
      rw [if_neg (not_lt.2 h1), if_pos h2]
    · simp only [human_readable]
      rw [if_neg (not_lt.2 (by linarith)), if_neg (not_lt.2 h1), if_pos h2]
    · simp only [human_readable]
      rw [if_neg (not_lt.2 (by linarith)), if_neg (not_lt.2 (by linarith)),
        if_neg (not_lt.2 h1), if_pos h2]
    · simp only [human_readable]
      rw [if_neg (not_lt.2 (by linarith)), if_neg (not_lt.2 (by linarith)),
        if_neg (not_lt.2 (by linarith)), if_neg (not_lt.2 h1),
        if_pos (show s < 365 * 86400 by linarith)]
    · simp only [human_readable]
      rw [if_neg (not_lt.2 (by linarith)), if_neg (not_lt.2 (by linarith)),
        if_neg (not_lt.2 (by linarith)), if_neg (not_lt.2 (by linarith)),
        if_neg (not_lt.2 (show (365:ℚ) * 86400 ≤ s by linarith)),
        if_pos (show s < 100 * (365 * 86400) by linarith)]
      norm_num
    · simp only [human_readable]
      rw [if_neg (not_lt.2 (by linarith)), if_neg (not_lt.2 (by linarith)),
        if_neg (not_lt.2 (by linarith)), if_neg (not_lt.2 (by linarith)),
        if_neg (not_lt.2 (show (365:ℚ) * 86400 ≤ s by linarith)),
        if_neg (not_lt.2 (show (100:ℚ) * (365 * 86400) ≤ s by linarith))]
      norm_num
  refine ⟨hg, ?_, ?_, ?_⟩
  · have h := (hg (1/2)).1 (by norm_num)
    rw [h, show (1:ℚ)/2 * 1000 = 500 by norm_num,
      fmt0_eval 500 500 (by rw [Int.floor_eq_iff]; norm_num) (by norm_num)]
    decide
  · have h := (hg 45).2.1 (by norm_num) (by norm_num)
    rw [h, fmt1_eval 45 450 (by rw [Int.floor_eq_iff]; norm_num) (by norm_num)]
    decide
  · have h := (hg 3661).2.2.2.1 (by norm_num) (by norm_num)
    rw [h, fmt1_eval (3661/3600) 10 (by rw [Int.floor_eq_iff]; norm_num) (by norm_num)]
    decide

/-- Closed instance of claim C6 obtained from the theorem at a concrete
duration, discharging its hypotheses there. -/
theorem C6_human_readable_spec_witness : human_readable 45 = fmt1 45 ++ " s" :=
  (C6_human_readable_spec.1 45).2.1 (by norm_num) (by norm_num)

/-- Claim C9: for the password Password1! the charset size is 94, the
entropy is 10 times the base-2 logarithm of 94, which lies strictly between
65.5 and 65.6 bits, the label is Very strong, the exact common-password
check is false and the common-substring check is true. -/
theorem C9_password1_example :
    charset_size "Password1!" = 94
    ∧ entropy_bits "Password1!" = 10 * Real.logb 2 94
    ∧ 65.5 < entropy_bits "Password1!"
    ∧ entropy_bits "Password1!" < 65.6
    ∧ strength_label (entropy_bits "Password1!") = "Very strong"
    ∧ is_common FALLBACK_COMMON "Password1!" = false
    ∧ contains_common_part FALLBACK_COMMON "Password1!" = true := by
  have hcs : charset_size "Password1!" = 94 := by decide
  have hlen : "Password1!".length = 10 := by decide
  have he : entropy_bits "Password1!" = 10 * Real.logb 2 94 := by
    simp only [entropy_bits, hcs, hlen]
    norm_num
  have hlow : (131/20 : ℝ) < Real.logb 2 94 := by
    rw [Real.lt_logb_iff_rpow_lt one_lt_two (by norm_num : (0:ℝ) < 94)]
    have hpow : ((2:ℝ) ^ ((131:ℝ)/20)) ^ (20:ℕ) = (2:ℝ) ^ (131:ℕ) := by
      rw [← Real.rpow_natCast ((2:ℝ) ^ ((131:ℝ)/20)) 20,
        ← Real.rpow_mul (by norm_num : (0:ℝ) ≤ 2),
        show ((131:ℝ)/20) * ((20:ℕ):ℝ) = ((131:ℕ):ℝ) by push_cast; ring,
        Real.rpow_natCast]
    have key : ((2:ℝ) ^ ((131:ℝ)/20)) ^ (20:ℕ) < (94:ℝ) ^ (20:ℕ) := by
      rw [hpow]
      norm_num
    exact lt_of_pow_lt_pow_left₀ 20 (by norm_num) key
  have hup : Real.logb 2 94 < (164/25 : ℝ) := by
    rw [Real.logb_lt_iff_lt_rpow one_lt_two (by norm_num : (0:ℝ) < 94)]
    have hpow : ((2:ℝ) ^ ((164:ℝ)/25)) ^ (25:ℕ) = (2:ℝ) ^ (164:ℕ) := by
      rw [← Real.rpow_natCast ((2:ℝ) ^ ((164:ℝ)/25)) 25,
        ← Real.rpow_mul (by norm_num : (0:ℝ) ≤ 2),
        show ((164:ℝ)/25) * ((25:ℕ):ℝ) = ((164:ℕ):ℝ) by push_cast; ring,
        Real.rpow_natCast]
    have key : (94:ℝ) ^ (25:ℕ) < ((2:ℝ) ^ ((164:ℝ)/25)) ^ (25:ℕ) := by
      rw [hpow]
      norm_num
    exact lt_of_pow_lt_pow_left₀ 25
      (le_of_lt (Real.rpow_pos_of_pos (by norm_num) _)) key
  have hb1 : (65.5:ℝ) < entropy_bits "Password1!" := by
    rw [he]
    nlinarith [hlow]
  have hb2 : entropy_bits "Password1!" < (65.6:ℝ) := by
    rw [he]
    nlinarith [hup]
  refine ⟨hcs, he, hb1, hb2, ?_, by decide, by decide⟩
  exact strength_label_of_sixty_le (by linarith)
